import Mathlib

/-!
# ClaimEvaluator — a verified shallow embedding

This file embeds the `ClaimEvaluator` Solidity contract
(`contracts/ClaimEvaluator.sol`) in Lean 4 and proves properties of its
encrypted claim ledger and homomorphic payout pipeline.

Modelling choices:
* `euint32` ciphertext handles are natural numbers (handle identities);
  the FHE coprocessor state maps each handle to its underlying plaintext
  value, always reduced modulo `2 ^ 32`.
* Every FHE operation (`asEuint32`, `fromExternal`, `sub`, `mul`, `div`)
  allocates a fresh handle, exactly as the coprocessor does; `allow` /
  `allowThis` append access-control entries.
* The contract state is the FHE state together with the
  `mapping(uint256 => EncryptedClaim)` (total function with the Solidity
  default value) and the `claimCounter`.
* Failure (Solidity `revert`) is `Option` / `Except`: a failing call
  returns no post-state, which models the all-or-nothing rollback.
-/

/-- The euint32 modulus `2 ^ 32`. -/
def modulus : Nat := 2 ^ 32

/-- A principal that may hold decryption rights: the contract itself or
an externally owned account (`msg.sender`). -/
inductive Principal where
  | contract : Principal
  | account : Nat → Principal
deriving DecidableEq, Repr

/-- State of the FHE coprocessor: the next fresh handle, the plaintext
value behind each handle, and the access-control list of
(handle, principal) grants. -/
structure FheState where
  nextHandle : Nat
  val : Nat → Nat
  acl : List (Nat × Principal)

/-- Point update of a handle-valuation. -/
def setVal (f : Nat → Nat) (k v : Nat) : Nat → Nat :=
  fun h => if h = k then v else f h

namespace FHE

/-- Embedding of `FHE.asEuint32(c)`: trivially encrypt the plaintext constant `c`,
returning a fresh handle. -/
def asEuint32 (f : FheState) (c : Nat) : Nat × FheState :=
  (f.nextHandle,
    { nextHandle := f.nextHandle + 1
      val := setVal f.val f.nextHandle (c % modulus)
      acl := f.acl })

/-- Embedding of `FHE.fromExternal(ext, proof)`: import an externally encrypted value
(the proof has already been checked by the caller wrapper), returning a
fresh handle to the underlying 32-bit value. -/
def fromExternal (f : FheState) (v : Nat) : Nat × FheState :=
  (f.nextHandle,
    { nextHandle := f.nextHandle + 1
      val := setVal f.val f.nextHandle (v % modulus)
      acl := f.acl })

/-- Embedding of `FHE.sub(a, b)`: homomorphic wrapping subtraction on euint32. -/
def sub (f : FheState) (a b : Nat) : Nat × FheState :=
  (f.nextHandle,
    { nextHandle := f.nextHandle + 1
      val := setVal f.val f.nextHandle ((f.val a + modulus - f.val b) % modulus)
      acl := f.acl })

/-- Embedding of `FHE.mul(a, b)`: homomorphic wrapping multiplication on euint32. -/
def mul (f : FheState) (a b : Nat) : Nat × FheState :=
  (f.nextHandle,
    { nextHandle := f.nextHandle + 1
      val := setVal f.val f.nextHandle ((f.val a * f.val b) % modulus)
      acl := f.acl })

/-- Embedding of `FHE.div(a, c)`: homomorphic division of a ciphertext by the
plaintext constant `c` (floor division). -/
def div (f : FheState) (a c : Nat) : Nat × FheState :=
  (f.nextHandle,
    { nextHandle := f.nextHandle + 1
      val := setVal f.val f.nextHandle (f.val a / c)
      acl := f.acl })

/-- Embedding of `FHE.allowThis(h)`: grant the contract decryption access to `h`. -/
def allowThis (f : FheState) (h : Nat) : FheState :=
  { f with acl := (h, Principal.contract) :: f.acl }

/-- Embedding of `FHE.allow(h, p)`: grant principal `p` decryption access to `h`. -/
def allow (f : FheState) (h : Nat) (p : Principal) : FheState :=
  { f with acl := (h, p) :: f.acl }

end FHE

/-- Embedding of `struct EncryptedClaim`: three euint32 handles and the existence
flag have Solidity default values `0` / `false`. -/
structure EncryptedClaim where
  lossAmount : Nat
  riskLevel : Nat
  payout : Nat
  exists' : Bool
deriving DecidableEq, Repr

/-- Contract storage plus the FHE coprocessor state. -/
structure LedgerState where
  fhe : FheState
  claims : Nat → EncryptedClaim
  claimCounter : Nat

/-- The deployed contract: mapping entries at their default value, no
claims, no handles, empty access-control list. -/
def initialState : LedgerState :=
  { fhe := { nextHandle := 0, val := fun _ => 0, acl := [] }
    claims := fun _ => { lossAmount := 0, riskLevel := 0, payout := 0, exists' := false }
    claimCounter := 0 }

/-- Constant `RISK_LEVEL_LOW`. -/
def RISK_LEVEL_LOW : Nat := 1
/-- Constant `RISK_LEVEL_MEDIUM`. -/
def RISK_LEVEL_MEDIUM : Nat := 2
/-- Constant `RISK_LEVEL_HIGH`. -/
def RISK_LEVEL_HIGH : Nat := 3
/-- Constant `PAYOUT_FULL` (basis points). -/
def PAYOUT_FULL : Nat := 10000
/-- Constant `PAYOUT_HIGH` (basis points; declared in the contract but unused by
the evaluation formula) -/
def PAYOUT_HIGH : Nat := 8000
/-- Constant `PAYOUT_LOW` (basis points; declared in the contract but unused by
the evaluation formula) -/
def PAYOUT_LOW : Nat := 5000
/-- Constant `DELAY_ITERATIONS`. -/
def DELAY_ITERATIONS : Nat := 200

/-- The loop of `_addDelay`: `delaySum n = 0 + 1 + ... + (n - 1)`,
computed exactly as the source loop accumulates it. -/
def delaySum : Nat → Nat
  | 0 => 0
  | n + 1 => delaySum n + n

/-- The revert condition of `_addDelay`:
`sum == 0 && DELAY_ITERATIONS > 0`. -/
def addDelayReverts : Bool :=
  delaySum DELAY_ITERATIONS == 0 && decide (0 < DELAY_ITERATIONS)

/-- Failure modes of the contract calls. -/
inductive EvalError where
  | notFound : EvalError
  | delayIntegrityFailure : EvalError
deriving DecidableEq, Repr

/-- Embedding of `submitClaim(lossAmountEuint32, riskLevelEuint32, inputProof)`.
`lossVal` / `riskVal` are the plaintexts behind the external ciphertexts
and `proofOk` is whether the input proof verifies; on failure the call
reverts (`none`). Returns the claim id and the post-state. -/
def submitClaim (s : LedgerState) (sender lossVal riskVal : Nat) (proofOk : Bool) :
    Option (Nat × LedgerState) :=
  if proofOk then
    let (hLoss, f1) := FHE.fromExternal s.fhe lossVal
    let (hRisk, f2) := FHE.fromExternal f1 riskVal
    let claimId := s.claimCounter
    let (hZero, f3) := FHE.asEuint32 f2 0
    let claims' := fun i =>
      if i = claimId then
        { lossAmount := hLoss, riskLevel := hRisk, payout := hZero, exists' := true }
      else s.claims i
    let f4 := FHE.allow (FHE.allowThis f3 hLoss) hLoss (Principal.account sender)
    let f5 := FHE.allow (FHE.allowThis f4 hRisk) hRisk (Principal.account sender)
    some (claimId, { fhe := f5, claims := claims', claimCounter := claimId + 1 })
  else none

/-- Embedding of `evaluateClaim(claimId)`: requires existence, runs the homomorphic
payout pipeline (`_addDelay` between the FHE steps — its revert
condition is checked as in the source), overwrites the stored payout
handle and grants access on it to the contract and the caller. -/
def evaluateClaim (s : LedgerState) (sender claimId : Nat) :
    Except EvalError LedgerState :=
  if (s.claims claimId).exists' then
    if addDelayReverts then .error .delayIntegrityFailure
    else
      let c := s.claims claimId
      let (hOne, f1) := FHE.asEuint32 s.fhe 1
      let (hRiskMinusOne, f2) := FHE.sub f1 c.riskLevel hOne
      let (h2500, f3) := FHE.asEuint32 f2 2500
      let (hRiskMultiplier, f4) := FHE.mul f3 hRiskMinusOne h2500
      let (hFull, f5) := FHE.asEuint32 f4 PAYOUT_FULL
      let (hPayoutPercent, f6) := FHE.sub f5 hFull hRiskMultiplier
      let (hPayoutNumerator, f7) := FHE.mul f6 c.lossAmount hPayoutPercent
      let (hCalculatedPayout, f8) := FHE.div f7 hPayoutNumerator 10000
      let f9 := FHE.allow (FHE.allowThis f8 hCalculatedPayout) hCalculatedPayout
        (Principal.account sender)
      let claims' := fun i =>
        if i = claimId then { c with payout := hCalculatedPayout } else s.claims i
      .ok { fhe := f9, claims := claims', claimCounter := s.claimCounter }
  else .error .notFound

/-- Embedding of `getLossAmount(claimId)`. -/
def getLossAmount (s : LedgerState) (claimId : Nat) : Except EvalError Nat :=
  if (s.claims claimId).exists' then .ok (s.claims claimId).lossAmount
  else .error .notFound

/-- Embedding of `getRiskLevel(claimId)`. -/
def getRiskLevel (s : LedgerState) (claimId : Nat) : Except EvalError Nat :=
  if (s.claims claimId).exists' then .ok (s.claims claimId).riskLevel
  else .error .notFound

/-- Embedding of `getPayout(claimId)`. -/
def getPayout (s : LedgerState) (claimId : Nat) : Except EvalError Nat :=
  if (s.claims claimId).exists' then .ok (s.claims claimId).payout
  else .error .notFound

/-- Embedding of `getClaim(claimId)`. -/
def getClaim (s : LedgerState) (claimId : Nat) : Except EvalError (Nat × Nat × Nat) :=
  if (s.claims claimId).exists' then
    .ok ((s.claims claimId).lossAmount, (s.claims claimId).riskLevel,
      (s.claims claimId).payout)
  else .error .notFound

/-- Embedding of `getClaimCount()`. -/
def getClaimCount (s : LedgerState) : Nat := s.claimCounter

/-- Embedding of `claimExists(claimId)`. -/
def claimExists (s : LedgerState) (claimId : Nat) : Bool :=
  (s.claims claimId).exists'

/-- One externally admitted, successfully committed call against the
ledger: a valid submission or a successful evaluation. (Failed calls
revert and leave no new state.) -/
inductive Step : LedgerState → LedgerState → Prop where
  | submit {s s' : LedgerState} (sender lossVal riskVal id : Nat) :
      submitClaim s sender lossVal riskVal true = some (id, s') → Step s s'
  | eval {s s' : LedgerState} (sender claimId : Nat) :
      evaluateClaim s sender claimId = .ok s' → Step s s'

/-- Ledger states reachable from deployment by any sequence of calls. -/
inductive Reachable : LedgerState → Prop where
  | init : Reachable initialState
  | step {s s' : LedgerState} : Reachable s → Step s s' → Reachable s'

/-- Decrypted payout produced by one successful evaluation, as a pure
function of the decrypted inputs: the euint32 pipeline
`(lossAmount * ((10000 - (riskLevel - 1) * 2500) mod 2^32 ...)) / 10000`
with every intermediate reduced modulo `2 ^ 32`. -/
def payoutFormula (vL vR : Nat) : Nat :=
  (vL * ((PAYOUT_FULL % modulus + modulus -
    ((vR + modulus - 1 % modulus) % modulus * (2500 % modulus)) % modulus) % modulus))
    % modulus / 10000

/-- Run on a fresh ledger: submit one claim, evaluate it, and decrypt
the stored payout. `none` when a call fails. -/
def runScenario (lossVal riskVal : Nat) : Option (Nat × Nat) :=
  match submitClaim initialState 77 lossVal riskVal true with
  | some (id, s1) =>
    match evaluateClaim s1 77 id with
    | .ok s2 => some (id, s2.fhe.val (s2.claims id).payout)
    | .error _ => none
  | none => none

set_option maxRecDepth 4000

/-- The state produced by a successful `submitClaim` call: three fresh
handles (loss, risk, encrypted zero), the new claim record at the old
counter, four access grants on the loss and risk handles. -/
def submitSucc (s : LedgerState) (sender lossVal riskVal : Nat) : LedgerState :=
  { fhe :=
      { nextHandle := s.fhe.nextHandle + 3
        val := setVal (setVal (setVal s.fhe.val s.fhe.nextHandle (lossVal % modulus))
          (s.fhe.nextHandle + 1) (riskVal % modulus)) (s.fhe.nextHandle + 2) (0 % modulus)
        acl := (s.fhe.nextHandle + 1, Principal.account sender) ::
          (s.fhe.nextHandle + 1, Principal.contract) ::
          (s.fhe.nextHandle, Principal.account sender) ::
          (s.fhe.nextHandle, Principal.contract) :: s.fhe.acl }
    claims := fun i =>
      if i = s.claimCounter then
        { lossAmount := s.fhe.nextHandle, riskLevel := s.fhe.nextHandle + 1
          payout := s.fhe.nextHandle + 2, exists' := true }
      else s.claims i
    claimCounter := s.claimCounter + 1 }

/-- The state produced by a successful `evaluateClaim` call: eight fresh
handles for the pipeline steps, payout field overwritten with the last
one, two access grants on it. -/
def evalSucc (s : LedgerState) (sender claimId : Nat) : LedgerState :=
  let c := s.claims claimId
  let n := s.fhe.nextHandle
  let val1 := setVal s.fhe.val n (1 % modulus)
  let val2 := setVal val1 (n + 1) ((val1 c.riskLevel + modulus - val1 n) % modulus)
  let val3 := setVal val2 (n + 2) (2500 % modulus)
  let val4 := setVal val3 (n + 3) ((val3 (n + 1) * val3 (n + 2)) % modulus)
  let val5 := setVal val4 (n + 4) (PAYOUT_FULL % modulus)
  let val6 := setVal val5 (n + 5) ((val5 (n + 4) + modulus - val5 (n + 3)) % modulus)
  let val7 := setVal val6 (n + 6) ((val6 c.lossAmount * val6 (n + 5)) % modulus)
  let val8 := setVal val7 (n + 7) (val7 (n + 6) / 10000)
  { fhe :=
      { nextHandle := n + 8
        val := val8
        acl := (n + 7, Principal.account sender) ::
          (n + 7, Principal.contract) :: s.fhe.acl }
    claims := fun i =>
      if i = claimId then { c with payout := n + 7 } else s.claims i
    claimCounter := s.claimCounter }

/-- A committed call that is not an evaluation of claim `id`: any valid
submission, or a successful evaluation of some other claim. -/
inductive StepAvoid (id : Nat) : LedgerState → LedgerState → Prop where
  | submit {s s' : LedgerState} (sender lossVal riskVal j : Nat) :
      submitClaim s sender lossVal riskVal true = some (j, s') → StepAvoid id s s'
  | eval {s s' : LedgerState} (sender claimId : Nat) :
      claimId ≠ id → evaluateClaim s sender claimId = .ok s' → StepAvoid id s s'

/-- Ledger invariant maintained by all reachable states: a claim record
exists exactly below the counter, every access-control entry references
an already allocated handle, and every stored claim's three handles are
already allocated. -/
def LedgerInv (s : LedgerState) : Prop :=
  (∀ i, (s.claims i).exists' = true ↔ i < s.claimCounter) ∧
  (∀ hp : Nat × Principal, hp ∈ s.fhe.acl → hp.1 < s.fhe.nextHandle) ∧
  (∀ i, i < s.claimCounter →
    (s.claims i).lossAmount < s.fhe.nextHandle ∧
    (s.claims i).riskLevel < s.fhe.nextHandle ∧
    (s.claims i).payout < s.fhe.nextHandle)

/-- A concrete state used to instantiate the theorems: one claim
submitted on a fresh ledger with lossAmount 1000 and riskLevel 2. -/
def demoSubmitState : LedgerState := submitSucc initialState 77 1000 2

/-- The demo state after one evaluation of claim 0. -/
def demoEvalState : LedgerState := evalSucc demoSubmitState 5 0

/-- The demo state after a second evaluation of claim 0. -/
def demoEvalState2 : LedgerState := evalSucc demoEvalState 9 0

lemma setVal_self (f : Nat → Nat) (k v : Nat) : setVal f k v k = v := by
  simp [setVal]

lemma setVal_ne (f : Nat → Nat) (k v h : Nat) (hne : h ≠ k) : setVal f k v h = f h := by
  simp [setVal, hne]

lemma addDelayReverts_eq_false : addDelayReverts = false := by decide

lemma submitClaim_eq (s : LedgerState) (sender lossVal riskVal : Nat) :
    submitClaim s sender lossVal riskVal true =
      some (s.claimCounter, submitSucc s sender lossVal riskVal) := rfl

lemma submitClaim_none (s : LedgerState) (sender lossVal riskVal : Nat) :
    submitClaim s sender lossVal riskVal false = none := rfl

lemma evaluateClaim_ok (s : LedgerState) (sender claimId : Nat)
    (hex : (s.claims claimId).exists' = true) :
    evaluateClaim s sender claimId = .ok (evalSucc s sender claimId) := by
  unfold evaluateClaim
  rw [hex, addDelayReverts_eq_false]
  rfl

lemma evaluateClaim_notFound (s : LedgerState) (sender claimId : Nat)
    (hex : (s.claims claimId).exists' = false) :
    evaluateClaim s sender claimId = .error .notFound := by
  unfold evaluateClaim
  rw [hex]
  rfl

lemma evaluateClaim_ok_inv (s : LedgerState) (sender claimId : Nat) (s' : LedgerState)
    (h : evaluateClaim s sender claimId = .ok s') :
    (s.claims claimId).exists' = true ∧ s' = evalSucc s sender claimId := by
  by_cases hex : (s.claims claimId).exists' = true
  · rw [evaluateClaim_ok s sender claimId hex] at h
    exact ⟨hex, (Except.ok.inj h).symm⟩
  · rw [evaluateClaim_notFound s sender claimId (by simpa using hex)] at h
    exact absurd h (by simp)

lemma submitClaim_some_inv (s : LedgerState) (sender lossVal riskVal id : Nat)
    (s' : LedgerState) (h : submitClaim s sender lossVal riskVal true = some (id, s')) :
    id = s.claimCounter ∧ s' = submitSucc s sender lossVal riskVal := by
  rw [submitClaim_eq] at h
  have h2 := Option.some.inj h
  rw [Prod.ext_iff] at h2
  exact ⟨h2.1.symm, h2.2.symm⟩

lemma evalSucc_nextHandle (s : LedgerState) (sender claimId : Nat) :
    (evalSucc s sender claimId).fhe.nextHandle = s.fhe.nextHandle + 8 := rfl

lemma evalSucc_claimCounter (s : LedgerState) (sender claimId : Nat) :
    (evalSucc s sender claimId).claimCounter = s.claimCounter := rfl

lemma evalSucc_acl (s : LedgerState) (sender claimId : Nat) :
    (evalSucc s sender claimId).fhe.acl =
      (s.fhe.nextHandle + 7, Principal.account sender) ::
        (s.fhe.nextHandle + 7, Principal.contract) :: s.fhe.acl := rfl

lemma submitSucc_nextHandle (s : LedgerState) (sender lossVal riskVal : Nat) :
    (submitSucc s sender lossVal riskVal).fhe.nextHandle = s.fhe.nextHandle + 3 := rfl

lemma submitSucc_claimCounter (s : LedgerState) (sender lossVal riskVal : Nat) :
    (submitSucc s sender lossVal riskVal).claimCounter = s.claimCounter + 1 := rfl

lemma submitSucc_acl (s : LedgerState) (sender lossVal riskVal : Nat) :
    (submitSucc s sender lossVal riskVal).fhe.acl =
      (s.fhe.nextHandle + 1, Principal.account sender) ::
        (s.fhe.nextHandle + 1, Principal.contract) ::
        (s.fhe.nextHandle, Principal.account sender) ::
        (s.fhe.nextHandle, Principal.contract) :: s.fhe.acl := rfl

lemma evalSucc_claims_ne (s : LedgerState) (sender claimId j : Nat) (hne : j ≠ claimId) :
    (evalSucc s sender claimId).claims j = s.claims j := by
  simp [evalSucc, hne]

lemma evalSucc_claims_self (s : LedgerState) (sender claimId : Nat) :
    (evalSucc s sender claimId).claims claimId =
      { s.claims claimId with payout := s.fhe.nextHandle + 7 } := by
  simp [evalSucc]

lemma evalSucc_payout_handle (s : LedgerState) (sender claimId : Nat) :
    ((evalSucc s sender claimId).claims claimId).payout = s.fhe.nextHandle + 7 := by
  simp [evalSucc]

lemma evalSucc_loss_handle (s : LedgerState) (sender claimId : Nat) :
    ((evalSucc s sender claimId).claims claimId).lossAmount =
      (s.claims claimId).lossAmount := by
  simp [evalSucc]

lemma evalSucc_risk_handle (s : LedgerState) (sender claimId : Nat) :
    ((evalSucc s sender claimId).claims claimId).riskLevel =
      (s.claims claimId).riskLevel := by
  simp [evalSucc]

lemma evalSucc_exists (s : LedgerState) (sender claimId : Nat) :
    ((evalSucc s sender claimId).claims claimId).exists' =
      (s.claims claimId).exists' := by
  simp [evalSucc]

lemma submitSucc_loss_handle (s : LedgerState) (sender lossVal riskVal : Nat) :
    ((submitSucc s sender lossVal riskVal).claims s.claimCounter).lossAmount =
      s.fhe.nextHandle := by
  simp [submitSucc]

lemma submitSucc_risk_handle (s : LedgerState) (sender lossVal riskVal : Nat) :
    ((submitSucc s sender lossVal riskVal).claims s.claimCounter).riskLevel =
      s.fhe.nextHandle + 1 := by
  simp [submitSucc]

lemma submitSucc_payout_handle (s : LedgerState) (sender lossVal riskVal : Nat) :
    ((submitSucc s sender lossVal riskVal).claims s.claimCounter).payout =
      s.fhe.nextHandle + 2 := by
  simp [submitSucc]

lemma submitSucc_exists (s : LedgerState) (sender lossVal riskVal : Nat) :
    ((submitSucc s sender lossVal riskVal).claims s.claimCounter).exists' = true := by
  simp [submitSucc]

lemma evalSucc_val_lt (s : LedgerState) (sender claimId h : Nat)
    (hh : h < s.fhe.nextHandle) :
    (evalSucc s sender claimId).fhe.val h = s.fhe.val h := by
  have h0 : h ≠ s.fhe.nextHandle := by omega
  have h1 : h ≠ s.fhe.nextHandle + 1 := by omega
  have h2 : h ≠ s.fhe.nextHandle + 2 := by omega
  have h3 : h ≠ s.fhe.nextHandle + 3 := by omega
  have h4 : h ≠ s.fhe.nextHandle + 4 := by omega
  have h5 : h ≠ s.fhe.nextHandle + 5 := by omega
  have h6 : h ≠ s.fhe.nextHandle + 6 := by omega
  have h7 : h ≠ s.fhe.nextHandle + 7 := by omega
  simp [evalSucc, setVal, h0, h1, h2, h3, h4, h5, h6, h7]

lemma evalSucc_payout_val (s : LedgerState) (sender claimId : Nat)
    (hL : (s.claims claimId).lossAmount < s.fhe.nextHandle)
    (hR : (s.claims claimId).riskLevel < s.fhe.nextHandle) :
    (evalSucc s sender claimId).fhe.val
        ((evalSucc s sender claimId).claims claimId).payout =
      payoutFormula (s.fhe.val (s.claims claimId).lossAmount)
        (s.fhe.val (s.claims claimId).riskLevel) := by
  have hL0 : (s.claims claimId).lossAmount ≠ s.fhe.nextHandle := by omega
  have hL1 : (s.claims claimId).lossAmount ≠ s.fhe.nextHandle + 1 := by omega
  have hL2 : (s.claims claimId).lossAmount ≠ s.fhe.nextHandle + 2 := by omega
  have hL3 : (s.claims claimId).lossAmount ≠ s.fhe.nextHandle + 3 := by omega
  have hL4 : (s.claims claimId).lossAmount ≠ s.fhe.nextHandle + 4 := by omega
  have hL5 : (s.claims claimId).lossAmount ≠ s.fhe.nextHandle + 5 := by omega
  have hR0 : (s.claims claimId).riskLevel ≠ s.fhe.nextHandle := by omega
  simp [evalSucc, setVal, payoutFormula, hL0, hL1, hL2, hL3, hL4, hL5, hR0,
    add_right_inj]

lemma submitSucc_claims_self (s : LedgerState) (sender lossVal riskVal : Nat) :
    (submitSucc s sender lossVal riskVal).claims s.claimCounter =
      { lossAmount := s.fhe.nextHandle, riskLevel := s.fhe.nextHandle + 1
        payout := s.fhe.nextHandle + 2, exists' := true } := by
  simp [submitSucc]

lemma submitSucc_claims_ne (s : LedgerState) (sender lossVal riskVal j : Nat)
    (hne : j ≠ s.claimCounter) :
    (submitSucc s sender lossVal riskVal).claims j = s.claims j := by
  simp [submitSucc, hne]

lemma submitSucc_val_loss (s : LedgerState) (sender lossVal riskVal : Nat) :
    (submitSucc s sender lossVal riskVal).fhe.val s.fhe.nextHandle =
      lossVal % modulus := by
  simp [submitSucc, setVal]

lemma submitSucc_val_risk (s : LedgerState) (sender lossVal riskVal : Nat) :
    (submitSucc s sender lossVal riskVal).fhe.val (s.fhe.nextHandle + 1) =
      riskVal % modulus := by
  simp [submitSucc, setVal, add_right_inj]

lemma submitSucc_val_lt (s : LedgerState) (sender lossVal riskVal h : Nat)
    (hh : h < s.fhe.nextHandle) :
    (submitSucc s sender lossVal riskVal).fhe.val h = s.fhe.val h := by
  have h0 : h ≠ s.fhe.nextHandle := by omega
  have h1 : h ≠ s.fhe.nextHandle + 1 := by omega
  have h2 : h ≠ s.fhe.nextHandle + 2 := by omega
  simp [submitSucc, setVal, h0, h1, h2]

lemma ledgerInv_init : LedgerInv initialState := by
  refine ⟨?_, ?_, ?_⟩
  · intro i; simp [initialState]
  · intro hp hmem; simp [initialState] at hmem
  · intro i hi; simp [initialState] at hi

lemma ledgerInv_submit (s : LedgerState) (sender lossVal riskVal : Nat)
    (hInv : LedgerInv s) : LedgerInv (submitSucc s sender lossVal riskVal) := by
  obtain ⟨hex, hacl, hhdl⟩ := hInv
  refine ⟨?_, ?_, ?_⟩
  · intro i
    rw [submitSucc_claimCounter]
    by_cases hi : i = s.claimCounter
    · subst hi
      rw [submitSucc_claims_self]
      simp
    · rw [submitSucc_claims_ne s sender lossVal riskVal i hi, hex i]
      omega
  · intro hp hmem
    rw [submitSucc_nextHandle]
    rw [submitSucc_acl, List.mem_cons, List.mem_cons, List.mem_cons,
      List.mem_cons] at hmem
    rcases hmem with h | h | h | h | h
    · rw [h]; omega
    · rw [h]; omega
    · rw [h]; omega
    · rw [h]; omega
    · exact lt_of_lt_of_le (hacl hp h) (by omega)
  · intro i hi
    rw [submitSucc_claimCounter] at hi
    rw [submitSucc_nextHandle]
    by_cases hi' : i = s.claimCounter
    · subst hi'
      rw [submitSucc_loss_handle, submitSucc_risk_handle, submitSucc_payout_handle]
      refine ⟨by omega, by omega, by omega⟩
    · rw [submitSucc_claims_ne s sender lossVal riskVal i hi']
      obtain ⟨a, b, c⟩ := hhdl i (by omega)
      exact ⟨by omega, by omega, by omega⟩

lemma ledgerInv_eval (s : LedgerState) (sender claimId : Nat)
    (hInv : LedgerInv s) (hex : (s.claims claimId).exists' = true) :
    LedgerInv (evalSucc s sender claimId) := by
  obtain ⟨hexq, hacl, hhdl⟩ := hInv
  have hid : claimId < s.claimCounter := (hexq claimId).1 hex
  refine ⟨?_, ?_, ?_⟩
  · intro i
    rw [evalSucc_claimCounter]
    by_cases hi : i = claimId
    · subst hi
      rw [evalSucc_exists]
      exact hexq i
    · rw [evalSucc_claims_ne s sender claimId i hi]
      exact hexq i
  · intro hp hmem
    rw [evalSucc_nextHandle]
    rw [evalSucc_acl, List.mem_cons, List.mem_cons] at hmem
    rcases hmem with h | h | h
    · rw [h]; omega
    · rw [h]; omega
    · exact lt_of_lt_of_le (hacl hp h) (by omega)
  · intro i hi
    rw [evalSucc_claimCounter] at hi
    rw [evalSucc_nextHandle]
    by_cases hi' : i = claimId
    · subst hi'
      rw [evalSucc_loss_handle, evalSucc_risk_handle, evalSucc_payout_handle]
      obtain ⟨a, b, c⟩ := hhdl i hid
      exact ⟨by omega, by omega, by omega⟩
    · rw [evalSucc_claims_ne s sender claimId i hi']
      obtain ⟨a, b, c⟩ := hhdl i hi
      exact ⟨by omega, by omega, by omega⟩

lemma step_inv {s s' : LedgerState} (hstep : Step s s') (hInv : LedgerInv s) :
    LedgerInv s' := by
  cases hstep with
  | submit sender lossVal riskVal id h =>
    obtain ⟨-, rfl⟩ := submitClaim_some_inv s sender lossVal riskVal id s' h
    exact ledgerInv_submit s sender lossVal riskVal hInv
  | eval sender claimId h =>
    obtain ⟨hex, rfl⟩ := evaluateClaim_ok_inv s sender claimId s' h
    exact ledgerInv_eval s sender claimId hInv hex

lemma reachable_inv {s : LedgerState} (hr : Reachable s) : LedgerInv s := by
  induction hr with
  | init => exact ledgerInv_init
  | step _ hstep ih => exact step_inv hstep ih

lemma step_exists_mono {s s' : LedgerState} (hstep : Step s s') (i : Nat)
    (hex : (s.claims i).exists' = true) : (s'.claims i).exists' = true := by
  cases hstep with
  | submit sender lossVal riskVal id h =>
    obtain ⟨-, rfl⟩ := submitClaim_some_inv s sender lossVal riskVal id s' h
    by_cases hi : i = s.claimCounter
    · subst hi; exact submitSucc_exists s sender lossVal riskVal
    · rw [submitSucc_claims_ne s sender lossVal riskVal i hi]; exact hex
  | eval sender claimId h =>
    obtain ⟨-, rfl⟩ := evaluateClaim_ok_inv s sender claimId s' h
    by_cases hi : i = claimId
    · subst hi; rw [evalSucc_exists]; exact hex
    · rw [evalSucc_claims_ne s sender claimId i hi]; exact hex

lemma step_counter_mono {s s' : LedgerState} (hstep : Step s s') :
    s.claimCounter ≤ s'.claimCounter := by
  cases hstep with
  | submit sender lossVal riskVal id h =>
    obtain ⟨-, rfl⟩ := submitClaim_some_inv s sender lossVal riskVal id s' h
    rw [submitSucc_claimCounter]; omega
  | eval sender claimId h =>
    obtain ⟨-, rfl⟩ := evaluateClaim_ok_inv s sender claimId s' h
    rw [evalSucc_claimCounter]

lemma step_nextHandle_mono {s s' : LedgerState} (hstep : Step s s') :
    s.fhe.nextHandle ≤ s'.fhe.nextHandle := by
  cases hstep with
  | submit sender lossVal riskVal id h =>
    obtain ⟨-, rfl⟩ := submitClaim_some_inv s sender lossVal riskVal id s' h
    rw [submitSucc_nextHandle]; omega
  | eval sender claimId h =>
    obtain ⟨-, rfl⟩ := evaluateClaim_ok_inv s sender claimId s' h
    rw [evalSucc_nextHandle]; omega

lemma step_acl_sub {s s' : LedgerState} (hstep : Step s s') (hp : Nat × Principal)
    (hmem : hp ∈ s'.fhe.acl) : hp ∈ s.fhe.acl ∨ s.fhe.nextHandle ≤ hp.1 := by
  cases hstep with
  | submit sender lossVal riskVal id h =>
    obtain ⟨-, rfl⟩ := submitClaim_some_inv s sender lossVal riskVal id s' h
    rw [submitSucc_acl, List.mem_cons, List.mem_cons, List.mem_cons,
      List.mem_cons] at hmem
    rcases hmem with h' | h' | h' | h' | h'
    · right; rw [h']; omega
    · right; rw [h']; omega
    · right; rw [h']
    · right; rw [h']
    · left; exact h'
  | eval sender claimId h =>
    obtain ⟨-, rfl⟩ := evaluateClaim_ok_inv s sender claimId s' h
    rw [evalSucc_acl, List.mem_cons, List.mem_cons] at hmem
    rcases hmem with h' | h' | h'
    · right; rw [h']; omega
    · right; rw [h']; omega
    · left; exact h'

lemma stepAvoid_step {id : Nat} {s s' : LedgerState} (h : StepAvoid id s s') :
    Step s s' := by
  cases h with
  | submit sender lossVal riskVal j hsub => exact Step.submit sender lossVal riskVal j hsub
  | eval sender claimId hne heval => exact Step.eval sender claimId heval

lemma stepAvoid_claims_fixed {id : Nat} {s s' : LedgerState} (h : StepAvoid id s s')
    (hid : id < s.claimCounter) : s'.claims id = s.claims id := by
  cases h with
  | submit sender lossVal riskVal j hsub =>
    obtain ⟨-, rfl⟩ := submitClaim_some_inv s sender lossVal riskVal j s' hsub
    exact submitSucc_claims_ne s sender lossVal riskVal id (by omega)
  | eval sender claimId hne heval =>
    obtain ⟨-, rfl⟩ := evaluateClaim_ok_inv s sender claimId s' heval
    exact evalSucc_claims_ne s sender claimId id (Ne.symm hne)

lemma payoutFormula_small (vL vR : Nat) (h1 : 1 ≤ vR) (h3 : vR ≤ 3) :
    payoutFormula vL vR = vL * (10000 - (vR - 1) * 2500) % modulus / 10000 := by
  have hpct : (PAYOUT_FULL % modulus + modulus -
      ((vR + modulus - 1 % modulus) % modulus * (2500 % modulus)) % modulus) % modulus
      = 10000 - (vR - 1) * 2500 := by
    have hm : modulus = 4294967296 := by norm_num [modulus]
    have hp : PAYOUT_FULL = 10000 := rfl
    rw [hm, hp]
    omega
  unfold payoutFormula
  rw [hpct]

lemma exists_false_of_not_true {s : LedgerState} {claimId : Nat}
    (hex : ¬(s.claims claimId).exists' = true) :
    (s.claims claimId).exists' = false := by
  cases hb : (s.claims claimId).exists'
  · rfl
  · exact absurd hb hex

/-- C4: for every valid submission (verifying proof), `submitClaim`
returns the claim count before the call as the id, and `getClaimCount`
afterwards is the prior count plus exactly one — ids are sequential,
strictly increasing and never reused. -/
theorem submit_returns_prior_count (s : LedgerState)
    (sender lossVal riskVal id : Nat) (s' : LedgerState)
    (h : submitClaim s sender lossVal riskVal true = some (id, s')) :
    id = getClaimCount s ∧ getClaimCount s' = getClaimCount s + 1 := by
  obtain ⟨h1, rfl⟩ := submitClaim_some_inv s sender lossVal riskVal id s' h
  exact ⟨h1, submitSucc_claimCounter s sender lossVal riskVal⟩

/-- C4 witness: the theorem applied to a concrete submission on the
fresh ledger. -/
theorem submit_returns_prior_count_witness :
    initialState.claimCounter = getClaimCount initialState ∧
      getClaimCount demoSubmitState = getClaimCount initialState + 1 :=
  submit_returns_prior_count initialState 77 1000 2 initialState.claimCounter
    demoSubmitState (submitClaim_eq initialState 77 1000 2)

/-- C5: in every reachable ledger state, `claimExists id` holds exactly
when `id < getClaimCount`, and an `exists` flag, once true, is never
reset to false by any further committed call. -/
theorem claim_exists_iff_lt_count (s : LedgerState) (hr : Reachable s) :
    (∀ i, claimExists s i = true ↔ i < getClaimCount s) ∧
    (∀ (s' : LedgerState) (i : Nat), Step s s' →
      claimExists s i = true → claimExists s' i = true) := by
  obtain ⟨hexq, -, -⟩ := reachable_inv hr
  exact ⟨fun i => hexq i, fun s' i hstep hex => step_exists_mono hstep i hex⟩

/-- C5 witness: the theorem applied to the initial (deployed) state. -/
theorem claim_exists_iff_lt_count_witness :
    claimExists initialState 0 = true ↔ 0 < getClaimCount initialState :=
  (claim_exists_iff_lt_count initialState Reachable.init).1 0

/-- C6: `evaluateClaim` and the four getters fail with NotFound exactly
when the referenced claim does not exist, and in a reachable state every
id at or beyond the counter does not exist. (A failing call returns no
post-state in this embedding, which is exactly the all-or-nothing revert
of the source.) -/
theorem getters_not_found_iff (s : LedgerState) (sender claimId : Nat)
    (hr : Reachable s) :
    (evaluateClaim s sender claimId = .error .notFound ↔
      claimExists s claimId = false) ∧
    (getLossAmount s claimId = .error .notFound ↔ claimExists s claimId = false) ∧
    (getRiskLevel s claimId = .error .notFound ↔ claimExists s claimId = false) ∧
    (getPayout s claimId = .error .notFound ↔ claimExists s claimId = false) ∧
    (getClaim s claimId = .error .notFound ↔ claimExists s claimId = false) ∧
    (getClaimCount s ≤ claimId → claimExists s claimId = false) := by
  obtain ⟨hexq, -, -⟩ := reachable_inv hr
  by_cases hex : (s.claims claimId).exists' = true
  · have hlt : claimId < s.claimCounter := (hexq claimId).1 hex
    rw [evaluateClaim_ok s sender claimId hex]
    refine ⟨?_, ?_, ?_, ?_, ?_, ?_⟩
    · simp [claimExists, hex]
    · simp [getLossAmount, hex, claimExists]
    · simp [getRiskLevel, hex, claimExists]
    · simp [getPayout, hex, claimExists]
    · simp [getClaim, hex, claimExists]
    · intro hge
      exact absurd hlt (Nat.not_lt.mpr hge)
  · have hex' := exists_false_of_not_true hex
    rw [evaluateClaim_notFound s sender claimId hex']
    refine ⟨?_, ?_, ?_, ?_, ?_, ?_⟩
    · simp [claimExists, hex']
    · simp [getLossAmount, hex', claimExists]
    · simp [getRiskLevel, hex', claimExists]
    · simp [getPayout, hex', claimExists]
    · simp [getClaim, hex', claimExists]
    · intro _
      simp [claimExists, hex']

/-- C6 witness: the theorem applied to the fresh ledger and the
nonexistent claim id 5. -/
theorem getters_not_found_iff_witness :
    evaluateClaim initialState 1 5 = .error .notFound ↔
      claimExists initialState 5 = false :=
  (getters_not_found_iff initialState 1 5 Reachable.init).1

/-- C8: a successful `evaluateClaim` modifies only the payout field of
the evaluated claim: the counter, every other claim, and the evaluated
claim's lossAmount, riskLevel and exists flag are unchanged. -/
theorem evaluate_frame (s : LedgerState) (sender claimId : Nat) (s' : LedgerState)
    (h : evaluateClaim s sender claimId = .ok s') :
    getClaimCount s' = getClaimCount s ∧
    (∀ j, j ≠ claimId → s'.claims j = s.claims j) ∧
    (s'.claims claimId).lossAmount = (s.claims claimId).lossAmount ∧
    (s'.claims claimId).riskLevel = (s.claims claimId).riskLevel ∧
    (∀ j, (s'.claims j).exists' = (s.claims j).exists') := by
  obtain ⟨hex, rfl⟩ := evaluateClaim_ok_inv s sender claimId s' h
  refine ⟨evalSucc_claimCounter s sender claimId,
    fun j hj => evalSucc_claims_ne s sender claimId j hj,
    evalSucc_loss_handle s sender claimId,
    evalSucc_risk_handle s sender claimId, fun j => ?_⟩
  by_cases hj : j = claimId
  · subst hj
    exact evalSucc_exists s sender j
  · rw [evalSucc_claims_ne s sender claimId j hj]

/-- C8 witness: the theorem applied to a concrete evaluation of the
demo claim. -/
theorem evaluate_frame_witness :
    getClaimCount demoEvalState = getClaimCount demoSubmitState ∧
    (∀ j, j ≠ 0 → demoEvalState.claims j = demoSubmitState.claims j) ∧
    (demoEvalState.claims 0).lossAmount = (demoSubmitState.claims 0).lossAmount ∧
    (demoEvalState.claims 0).riskLevel = (demoSubmitState.claims 0).riskLevel ∧
    (∀ j, (demoEvalState.claims j).exists' = (demoSubmitState.claims j).exists') :=
  evaluate_frame demoSubmitState 5 0 demoEvalState
    (evaluateClaim_ok demoSubmitState 5 0 (by decide))

/-- C9: the `_addDelay` failure branch is unreachable — the checked sum
over `DELAY_ITERATIONS = 200` iterations is positive, the revert
condition is false, and every `evaluateClaim` call either succeeds or
fails NotFound, never with DelayIntegrityFailure. -/
theorem delay_always_passes :
    0 < delaySum DELAY_ITERATIONS ∧ addDelayReverts = false ∧
      ∀ (s : LedgerState) (sender claimId : Nat),
        evaluateClaim s sender claimId = .error .notFound ∨
          evaluateClaim s sender claimId = .ok (evalSucc s sender claimId) := by
  refine ⟨by decide, addDelayReverts_eq_false, ?_⟩
  intro s sender claimId
  by_cases hex : (s.claims claimId).exists' = true
  · exact .inr (evaluateClaim_ok s sender claimId hex)
  · exact .inl (evaluateClaim_notFound s sender claimId (exists_false_of_not_true hex))

/-- C1 counterexample: with riskLevel 1 (payout percent 10000) and
lossAmount 429497 the product `429497 * 10000` wraps modulo `2 ^ 32`, so
the stored payout decrypts to 0, while the claimed plain-arithmetic
formula `floor(lossAmount * (10000 - (riskLevel - 1) * 2500) / 10000)`
gives 429497. -/
theorem evaluate_payout_formula_counterexample :
    runScenario 429497 1 = some (0, 0) ∧
      429497 * (10000 - (1 - 1) * 2500) / 10000 ≠ 0 := by
  constructor
  · decide
  · decide

/-- C1 (amended): for every stored claim with riskLevel in {1, 2, 3},
`evaluateClaim` stores
`payout = floor((lossAmount * (10000 - (riskLevel - 1) * 2500) mod 2^32) / 10000)`
— the payout percent is 10000 / 7500 / 5000 basis points and the
divisor 10000 is a plaintext constant, but the numerator product is
reduced modulo `2 ^ 32` (euint32) before the division. -/
theorem evaluate_payout_formula_mod (s : LedgerState) (sender claimId vR : Nat)
    (hr : Reachable s) (hex : (s.claims claimId).exists' = true)
    (hrisk : s.fhe.val (s.claims claimId).riskLevel = vR)
    (h1 : 1 ≤ vR) (h3 : vR ≤ 3) :
    ∃ s', evaluateClaim s sender claimId = .ok s' ∧
      s'.fhe.val ((s'.claims claimId).payout) =
        s.fhe.val (s.claims claimId).lossAmount *
          (10000 - (vR - 1) * 2500) % modulus / 10000 := by
  obtain ⟨hexq, hacl, hhdl⟩ := reachable_inv hr
  have hid : claimId < s.claimCounter := (hexq claimId).1 hex
  obtain ⟨hL, hR, -⟩ := hhdl claimId hid
  refine ⟨evalSucc s sender claimId, evaluateClaim_ok s sender claimId hex, ?_⟩
  rw [evalSucc_payout_val s sender claimId hL hR, hrisk,
    payoutFormula_small _ vR h1 h3]

/-- C1 witness: the amended theorem applied to the demo claim
(riskLevel 2, lossAmount 1000). -/
theorem evaluate_payout_formula_mod_witness :
    ∃ s', evaluateClaim demoSubmitState 5 0 = .ok s' ∧
      s'.fhe.val ((s'.claims 0).payout) =
        demoSubmitState.fhe.val (demoSubmitState.claims 0).lossAmount *
          (10000 - (2 - 1) * 2500) % modulus / 10000 :=
  evaluate_payout_formula_mod demoSubmitState 5 0 2
    (Reachable.step Reachable.init (Step.submit 77 1000 2 initialState.claimCounter
      (submitClaim_eq initialState 77 1000 2)))
    (by decide) (by decide) (by decide) (by decide)

/-- C2 counterexample: on a fresh ledger, submitting
lossAmount = 1000000000, riskLevel = 2 does return claim id 0, but
evaluating it stores a payout that decrypts to 98710 — not the claimed
750000000 — because `1000000000 * 7500` wraps modulo `2 ^ 32`. -/
theorem scenario_billion_counterexample :
    runScenario 1000000000 2 = some (0, 98710) ∧ (98710 : Nat) ≠ 750000000 := by
  constructor
  · decide
  · decide

/-- C2 (amended): on a fresh ledger, submit(lossAmount = 1000000000,
riskLevel = 2) returns claim id 0, and evaluating claim 0 stores a
payout that decrypts to
`floor((1000000000 * 7500 mod 2^32) / 10000) = 98710`, the euint32
(mod `2 ^ 32`) value of the pipeline. -/
theorem scenario_billion_payout :
    runScenario 1000000000 2 = some (0, 1000000000 * 7500 % modulus / 10000) := by
  decide

/-- C3 counterexample: with riskLevel 1, lossAmount 429497 (still inside
the unsigned 32-bit domain) the stored payout decrypts to 0, not to the
lossAmount, because `429497 * 10000 ≥ 2 ^ 32`. -/
theorem risk_one_exact_counterexample :
    runScenario 429497 1 = some (0, 0) ∧ (0 : Nat) ≠ 429497 := by
  constructor
  · decide
  · decide

/-- C3 (amended): for every stored claim with riskLevel 1,
`evaluateClaim` stores payout = lossAmount exactly, provided the
intermediate product `lossAmount * 10000` does not wrap modulo `2 ^ 32`
(i.e. lossAmount ≤ 429496); all intermediates are euint32. -/
theorem evaluate_risk_one_exact (s : LedgerState) (sender claimId : Nat)
    (hr : Reachable s) (hex : (s.claims claimId).exists' = true)
    (hrisk : s.fhe.val (s.claims claimId).riskLevel = 1)
    (hsmall : s.fhe.val (s.claims claimId).lossAmount * 10000 < modulus) :
    ∃ s', evaluateClaim s sender claimId = .ok s' ∧
      s'.fhe.val ((s'.claims claimId).payout) =
        s.fhe.val (s.claims claimId).lossAmount := by
  obtain ⟨hexq, hacl, hhdl⟩ := reachable_inv hr
  have hid : claimId < s.claimCounter := (hexq claimId).1 hex
  obtain ⟨hL, hR, -⟩ := hhdl claimId hid
  refine ⟨evalSucc s sender claimId, evaluateClaim_ok s sender claimId hex, ?_⟩
  rw [evalSucc_payout_val s sender claimId hL hR, hrisk,
    payoutFormula_small _ 1 (by omega) (by omega)]
  norm_num
  rw [Nat.mod_eq_of_lt hsmall]
  omega

/-- C3 witness: the amended theorem applied to a fresh submission with
riskLevel 1 and lossAmount 1000. -/
theorem evaluate_risk_one_exact_witness :
    ∃ s', evaluateClaim (submitSucc initialState 8 1000 1) 8 0 = .ok s' ∧
      s'.fhe.val ((s'.claims 0).payout) =
        (submitSucc initialState 8 1000 1).fhe.val
          ((submitSucc initialState 8 1000 1).claims 0).lossAmount :=
  evaluate_risk_one_exact (submitSucc initialState 8 1000 1) 8 0
    (Reachable.step Reachable.init (Step.submit 8 1000 1 initialState.claimCounter
      (submitClaim_eq initialState 8 1000 1)))
    (by decide) (by decide) (by decide)

/-- C7: evaluation is deterministic and repeatable — evaluating the
same claim twice in a row stores payout handles that decrypt to the
same value, since the payout is a pure function of the unchanged
lossAmount and riskLevel values. -/
theorem evaluate_deterministic (s : LedgerState) (a b claimId : Nat)
    (s1 s2 : LedgerState) (hr : Reachable s)
    (h1 : evaluateClaim s a claimId = .ok s1)
    (h2 : evaluateClaim s1 b claimId = .ok s2) :
    s2.fhe.val ((s2.claims claimId).payout) =
      s1.fhe.val ((s1.claims claimId).payout) := by
  obtain ⟨hexq, hacl, hhdl⟩ := reachable_inv hr
  obtain ⟨hex, rfl⟩ := evaluateClaim_ok_inv s a claimId s1 h1
  obtain ⟨hex1, rfl⟩ := evaluateClaim_ok_inv _ b claimId s2 h2
  have hid : claimId < s.claimCounter := (hexq claimId).1 hex
  obtain ⟨hL, hR, -⟩ := hhdl claimId hid
  have hL1 : ((evalSucc s a claimId).claims claimId).lossAmount <
      (evalSucc s a claimId).fhe.nextHandle := by
    rw [evalSucc_loss_handle, evalSucc_nextHandle]
    omega
  have hR1 : ((evalSucc s a claimId).claims claimId).riskLevel <
      (evalSucc s a claimId).fhe.nextHandle := by
    rw [evalSucc_risk_handle, evalSucc_nextHandle]
    omega
  rw [evalSucc_payout_val s a claimId hL hR,
    evalSucc_payout_val (evalSucc s a claimId) b claimId hL1 hR1,
    evalSucc_loss_handle, evalSucc_risk_handle,
    evalSucc_val_lt s a claimId _ hL, evalSucc_val_lt s a claimId _ hR]

/-- C7 witness: the theorem applied to two successive evaluations of
the demo claim. -/
theorem evaluate_deterministic_witness :
    demoEvalState2.fhe.val ((demoEvalState2.claims 0).payout) =
      demoEvalState.fhe.val ((demoEvalState.claims 0).payout) :=
  evaluate_deterministic demoSubmitState 5 9 0 demoEvalState demoEvalState2
    (Reachable.step Reachable.init (Step.submit 77 1000 2 initialState.claimCounter
      (submitClaim_eq initialState 77 1000 2)))
    (evaluateClaim_ok demoSubmitState 5 0 (by decide))
    (evaluateClaim_ok demoEvalState 9 0 (by decide))

/-- C10: at submission only the lossAmount and riskLevel handles
receive access grants; the encrypted-zero payout handle stored at
submission is granted to no principal, and stays ungranted in every
later state reached without evaluating this claim — while `getPayout`
keeps returning exactly that handle. -/
theorem submit_payout_handle_never_granted (s : LedgerState)
    (sender lossVal riskVal id : Nat) (s' : LedgerState) (hr : Reachable s)
    (h : submitClaim s sender lossVal riskVal true = some (id, s')) :
    getPayout s' id = .ok ((s'.claims id).payout) ∧
    ∀ t, Relation.ReflTransGen (StepAvoid id) s' t →
      getPayout t id = .ok ((s'.claims id).payout) ∧
      ∀ p, ((s'.claims id).payout, p) ∉ t.fhe.acl := by
  obtain ⟨hexq, hacl, hhdl⟩ := reachable_inv hr
  obtain ⟨rfl, rfl⟩ := submitClaim_some_inv s sender lossVal riskVal id s' h
  have key : ∀ t, Relation.ReflTransGen (StepAvoid s.claimCounter)
      (submitSucc s sender lossVal riskVal) t →
      t.claims s.claimCounter = (submitSucc s sender lossVal riskVal).claims s.claimCounter ∧
      s.claimCounter < t.claimCounter ∧
      s.fhe.nextHandle + 3 ≤ t.fhe.nextHandle ∧
      ∀ p, (s.fhe.nextHandle + 2, p) ∉ t.fhe.acl := by
    intro t ht
    induction ht with
    | refl =>
      refine ⟨rfl, ?_, ?_, ?_⟩
      · rw [submitSucc_claimCounter]
        omega
      · rw [submitSucc_nextHandle]
      · intro p hmem
        rw [submitSucc_acl, List.mem_cons, List.mem_cons, List.mem_cons,
          List.mem_cons] at hmem
        rcases hmem with h' | h' | h' | h' | h'
        · simp at h'
        · simp at h'
        · simp at h'
        · simp at h'
        · exact absurd (hacl _ h') (by omega)
    | tail hsteps hstep ih =>
      obtain ⟨hclaims, hcnt, hnh, hng⟩ := ih
      have hstep' := stepAvoid_step hstep
      refine ⟨?_, ?_, ?_, ?_⟩
      · rw [stepAvoid_claims_fixed hstep hcnt, hclaims]
      · exact lt_of_lt_of_le hcnt (step_counter_mono hstep')
      · exact le_trans hnh (step_nextHandle_mono hstep')
      · intro p hmem
        rcases step_acl_sub hstep' (s.fhe.nextHandle + 2, p) hmem with hin | hge
        · exact hng p hin
        · have := step_nextHandle_mono hstep'
          simp only at hge
          omega
  constructor
  · simp [getPayout, submitSucc_exists]
  · intro t ht
    obtain ⟨hclaims, hcnt, hnh, hng⟩ := key t ht
    constructor
    · simp [getPayout, hclaims, submitSucc_exists]
    · intro p
      rw [submitSucc_payout_handle]
      exact hng p

/-- C10 witness: the theorem applied to a concrete submission on the
fresh ledger. -/
theorem submit_payout_handle_never_granted_witness :
    getPayout demoSubmitState 0 = .ok ((demoSubmitState.claims 0).payout) :=
  (submit_payout_handle_never_granted initialState 77 1000 2
    initialState.claimCounter demoSubmitState Reachable.init
    (submitClaim_eq initialState 77 1000 2)).1

